import Mathlib

/-!
# Verification of the ZepixTradingBot Trade Lifecycle & Re-Entry Engine

Shallow embedding of the parts of the repository relevant to the frozen
claims, and theorems settling each claim.

Sources embedded:
* `src/core/plugin_system/service_api.py` — `ServiceAPI.check_daily_limit`,
  `ServiceAPI.place_order`, `ServiceAPI.place_dual_orders_v3`,
  `ServiceAPI.place_single_order_a`.
* `src/modules/session_manager.py` — `SessionManager.get_current_session`,
  `SessionManager.check_trade_allowed`.
* `src/logic_plugins/combined_v3/plugin.py` — routing, aggressive-reversal
  handling, smart lot, and the re-entry (chain level) machinery of
  `CombinedV3Plugin`.

Python `float` prices and lot sizes are modelled as rationals (`ℚ`);
Python dicts keyed by strings are modelled as association lists.
-/

/-- Association-list lookup, modelling Python `dict[key]` / `key in dict`
(first binding wins; Python dicts have unique keys). -/
def lookupKey {α : Type} : List (String × α) → String → Option α
  | [], _ => none
  | (k, v) :: rest, key => if k = key then some v else lookupKey rest key

/-- Association-list update, modelling Python `dict[key] = value`. -/
def setKey {α : Type} : List (String × α) → String → α → List (String × α)
  | [], key, v => [(key, v)]
  | (k, w) :: rest, key, v =>
      if k = key then (key, v) :: rest else (k, w) :: setKey rest key v

/-!
## ServiceAPI: daily-limit check (`service_api.py` lines 696–705)

`check_daily_limit` delegates to the risk service when one is attached and
otherwise returns the literal fallback dict
`{"can_trade": True, "daily_loss": 0.0, "daily_limit": 0.0}`.
-/

/-- The dict returned by `check_daily_limit`:
`{"can_trade": ..., "daily_loss": ..., "daily_limit": ...}`. -/
structure DailyLimitInfo where
  can_trade : Bool
  daily_loss : ℚ
  daily_limit : ℚ
  deriving DecidableEq, Repr

/-- The slice of `ServiceAPI` state that `check_daily_limit` reads:
`self._plugin_id` and `self._risk_service` (modelled by the answer the
risk service would give per plugin id; `none` = service not attached). -/
structure RiskApiState where
  pluginId : String
  riskService : Option (String → DailyLimitInfo)

/-- `ServiceAPI.check_daily_limit` (service_api.py:696–705):
if `self._risk_service` is set, return its answer for `self._plugin_id`;
otherwise return `{"can_trade": True, "daily_loss": 0.0, "daily_limit": 0.0}`. -/
def check_daily_limit (api : RiskApiState) : DailyLimitInfo :=
  match api.riskService with
  | some svc => svc api.pluginId
  | none => { can_trade := true, daily_loss := 0, daily_limit := 0 }

/-!
## ServiceAPI: order placement (`service_api.py` lines 282–445)

Each placement method first consults `self._engine.trading_enabled`.  We
model the broker/execution layer (`self._mt5`, `self._order_service`) by
oracle functions supplied in the state, and record every invocation of
that layer in an effect trace, so "the broker is never invoked" is the
statement that the trace is empty.
-/

/-- Python `str.upper()` (ASCII data as used by the bot), written on the
character list so it evaluates in the kernel. -/
def pyUpper (s : String) : String :=
  ⟨s.data.map Char.toUpper⟩

/-- Arguments of an `self._mt5.place_order(...)` call. -/
structure Mt5Request where
  symbol : String
  order_type : String
  lot_size : ℚ
  sl : ℚ
  tp : ℚ
  comment : String
  deriving DecidableEq, Repr

/-- One invocation of the broker/execution layer. -/
inductive BrokerCall where
  | mt5Place (req : Mt5Request)
  | svcDualV3 (symbol direction : String) (lotTotal aSl aTp bSl bTp : ℚ)
      (logicRoute : String)
  | svcSingleA (symbol direction : String) (lot sl tp : ℚ) (comment : String)
  deriving DecidableEq, Repr

/-- The `OrderExecutionService` oracle (`self._order_service`). -/
structure OrderServiceModel where
  dualV3 : String → String → ℚ → ℚ → ℚ → ℚ → ℚ → String →
    Option ℤ × Option ℤ
  singleA : String → String → ℚ → ℚ → ℚ → String → Option ℤ

/-- The slice of `ServiceAPI` state the placement methods read. -/
structure OrderApiState where
  tradingEnabled : Bool
  pluginId : String
  mt5PlaceOrder : Mt5Request → Option ℤ
  orderService : Option OrderServiceModel

/-- `ServiceAPI.place_order` (service_api.py:282–311): rejects with `None`
when `self._engine.trading_enabled` is false, otherwise calls
`self._mt5.place_order` with the plugin-tagged comment. -/
def place_order (api : OrderApiState) (symbol direction : String)
    (lot_size sl_price tp_price : ℚ) (comment : String) :
    Option ℤ × List BrokerCall :=
  if !api.tradingEnabled then (none, [])
  else
    let req : Mt5Request :=
      { symbol := symbol, order_type := pyUpper direction, lot_size := lot_size,
        sl := sl_price, tp := tp_price,
        comment := if comment ≠ "" then api.pluginId ++ "|" ++ comment
                   else api.pluginId }
    (api.mt5PlaceOrder req, [BrokerCall.mt5Place req])

/-- `ServiceAPI.place_dual_orders_v3` (service_api.py:313–362): rejects with
`(None, None)` when trading is paused; otherwise delegates to
`self._order_service` when attached, else falls back to `(None, None)`. -/
def place_dual_orders_v3 (api : OrderApiState) (symbol direction : String)
    (lot_size_total order_a_sl order_a_tp order_b_sl order_b_tp : ℚ)
    (logic_route : String) :
    (Option ℤ × Option ℤ) × List BrokerCall :=
  if !api.tradingEnabled then ((none, none), [])
  else
    match api.orderService with
    | some svc =>
        (svc.dualV3 symbol direction lot_size_total order_a_sl order_a_tp
          order_b_sl order_b_tp logic_route,
         [BrokerCall.svcDualV3 symbol direction lot_size_total order_a_sl
            order_a_tp order_b_sl order_b_tp logic_route])
    | none => ((none, none), [])

/-- `ServiceAPI.place_single_order_a` (service_api.py:408–445): rejects with
`None` when trading is paused; otherwise delegates to `self._order_service`
when attached, else falls back to `self.place_order`. -/
def place_single_order_a (api : OrderApiState) (symbol direction : String)
    (lot_size sl_price tp_price : ℚ) (comment : String) :
    Option ℤ × List BrokerCall :=
  if !api.tradingEnabled then (none, [])
  else
    match api.orderService with
    | some svc =>
        (svc.singleA symbol direction lot_size sl_price tp_price comment,
         [BrokerCall.svcSingleA symbol direction lot_size sl_price tp_price
            comment])
    | none => place_order api symbol direction lot_size sl_price tp_price comment

/-- C1 (counterexample): in a `ServiceAPI` state with no risk service
attached, `check_daily_limit` reports `can_trade = true`, refuting the
claim that it reports `can_trade = false` in every such state. -/
theorem check_daily_limit_no_service_allows :
    ¬ ((check_daily_limit ⟨"combined_v3", none⟩).can_trade = false) := by
  decide

/-- C1 (amended): `check_daily_limit` fails open, not closed — for every
state in which the risk service is absent it returns the fallback
`{can_trade := true, daily_loss := 0, daily_limit := 0}`, silently allowing
trading; when a risk service is attached it returns that service's answer
for the plugin id. -/
theorem check_daily_limit_fails_open (pid : String)
    (svc : String → DailyLimitInfo) :
    check_daily_limit ⟨pid, none⟩
        = { can_trade := true, daily_loss := 0, daily_limit := 0 }
    ∧ check_daily_limit ⟨pid, some svc⟩ = svc pid := by
  exact ⟨rfl, rfl⟩

/-- C9: whenever `trading_enabled` is false, `place_order` returns `None`,
`place_dual_orders_v3` returns `(None, None)` and `place_single_order_a`
returns `None`, and none of them invokes the broker/execution layer
(the effect trace is empty), for every plugin id, broker oracle, order
service and argument list. -/
theorem trading_paused_blocks_all_placement (pid : String)
    (mt5 : Mt5Request → Option ℤ) (svc : Option OrderServiceModel)
    (symbol direction : String) (lot sl tp lotTotal aSl aTp bSl bTp : ℚ)
    (route comment : String) :
    place_order ⟨false, pid, mt5, svc⟩
        symbol direction lot sl tp comment = (none, [])
    ∧ place_dual_orders_v3 ⟨false, pid, mt5, svc⟩
        symbol direction lotTotal aSl aTp bSl bTp route = ((none, none), [])
    ∧ place_single_order_a ⟨false, pid, mt5, svc⟩
        symbol direction lot sl tp comment = (none, []) := by
  refine ⟨rfl, rfl, rfl⟩

/-!
## SessionManager (`src/modules/session_manager.py`)

Times of day are minutes since midnight (`time_to_minutes` of the stored
`"HH:MM"` strings).  The session table (`self.config['sessions']`) is an
association list of session id to session data; `master_switch` is the
optional `self.config.get('master_switch', True)`.
-/

/-- One entry of `self.config['sessions']`: `start_time`/`end_time` already
converted by `time_to_minutes`, plus `allowed_symbols` and `name`. -/
structure SessionData where
  startMins : ℕ
  endMins : ℕ
  allowedSymbols : List String
  name : String
  deriving DecidableEq, Repr

/-- The slice of `SessionManager.config` read by session admission. -/
structure SessionConfig where
  masterSwitch : Option Bool
  sessions : List (String × SessionData)

/-- `SessionManager.time_to_minutes` (session_manager.py:192–203). -/
def time_to_minutes (hours minutes : ℕ) : ℕ :=
  hours * 60 + minutes

/-- The active-session test from the loop of `get_current_session`
(session_manager.py:226–238): a window spanning midnight
(`start_mins > end_mins`) contains `current_minutes` iff
`current_minutes >= start_mins or current_minutes < end_mins`; a normal
window iff `start_mins <= current_minutes < end_mins`. -/
def sessionContains (currentMinutes : ℕ) (s : SessionData) : Bool :=
  if s.endMins < s.startMins then
    decide (s.startMins ≤ currentMinutes) || decide (currentMinutes < s.endMins)
  else
    decide (s.startMins ≤ currentMinutes) && decide (currentMinutes < s.endMins)

/-- The `active_sessions` list of `(session_id, start_mins)` pairs collected
by `get_current_session` (session_manager.py:224–238), in table order. -/
def activeSessions (cfg : SessionConfig) (currentMinutes : ℕ) :
    List (String × ℕ) :=
  cfg.sessions.filterMap fun p =>
    if sessionContains currentMinutes p.2 then some (p.1, p.2.startMins)
    else none

/-- Stable insertion step of `active_sessions.sort(key=..., reverse=True)`:
an earlier element goes before all strictly smaller starts and before equal
starts (Python's sort is stable). -/
def insertByStartDesc (x : String × ℕ) :
    List (String × ℕ) → List (String × ℕ)
  | [] => [x]
  | y :: ys =>
      if y.2 ≤ x.2 then x :: y :: ys else y :: insertByStartDesc x ys

/-- `active_sessions.sort(key=lambda x: x[1], reverse=True)`
(session_manager.py:246) as a stable descending insertion sort. -/
def sortByStartDesc : List (String × ℕ) → List (String × ℕ)
  | [] => []
  | x :: xs => insertByStartDesc x (sortByStartDesc xs)

/-- `SessionManager.get_current_session` (session_manager.py:205–247):
`"none"` when no window contains the time, otherwise the id of the active
window with the latest start time (first in table order on ties). -/
def get_current_session (cfg : SessionConfig) (currentMinutes : ℕ) : String :=
  match sortByStartDesc (activeSessions cfg currentMinutes) with
  | [] => "none"
  | x :: _ => x.1

/-- `SessionManager.check_trade_allowed` (session_manager.py:249–278).
The final `none` lookup branch is unreachable: `get_current_session` only
returns ids present in the table. -/
def check_trade_allowed (cfg : SessionConfig) (symbol : String)
    (currentMinutes : ℕ) : Bool × String :=
  if !(cfg.masterSwitch.getD true) then
    (true, "Master switch OFF - all trades allowed")
  else
    let currentSession := get_current_session cfg currentMinutes
    if currentSession = "none" then (false, "No active session")
    else
      match lookupKey cfg.sessions currentSession with
      | some data =>
          if symbol ∈ data.allowedSymbols then
            (true, "Allowed in " ++ data.name)
          else
            (false, symbol ++ " not allowed in " ++ data.name)
      | none => (false, "No active session")

/-- C7: with the master switch disabled, `check_trade_allowed` returns
`allowed = true` with the bypass reason for every session table, every
symbol and every time — the result does not depend on any session window
or symbol list. -/
theorem master_switch_off_allows_all (sessions : List (String × SessionData))
    (symbol : String) (currentMinutes : ℕ) :
    check_trade_allowed ⟨some false, sessions⟩ symbol currentMinutes
      = (true, "Master switch OFF - all trades allowed") := by
  rfl

theorem mem_insertByStartDesc {z x : String × ℕ} {l : List (String × ℕ)} :
    z ∈ insertByStartDesc x l ↔ z = x ∨ z ∈ l := by
  induction l with
  | nil => simp [insertByStartDesc]
  | cons y ys ih =>
      by_cases h : y.2 ≤ x.2
      · simp only [insertByStartDesc, if_pos h, List.mem_cons]
      · simp only [insertByStartDesc, if_neg h, List.mem_cons, ih]
        tauto

theorem mem_sortByStartDesc {z : String × ℕ} {l : List (String × ℕ)} :
    z ∈ sortByStartDesc l ↔ z ∈ l := by
  induction l with
  | nil => simp [sortByStartDesc]
  | cons x xs ih =>
      simp [sortByStartDesc, mem_insertByStartDesc, ih, List.mem_cons]

theorem sortByStartDesc_eq_nil_iff {l : List (String × ℕ)} :
    sortByStartDesc l = [] ↔ l = [] := by
  induction l with
  | nil => simp [sortByStartDesc]
  | cons x xs ih =>
      simp only [sortByStartDesc]
      constructor
      · intro h
        cases hs : sortByStartDesc xs with
        | nil => rw [hs] at h; simp [insertByStartDesc] at h
        | cons y ys =>
            rw [hs] at h
            simp only [insertByStartDesc] at h
            split at h <;> simp at h
      · intro h; simp at h

theorem sortByStartDesc_head_max {l : List (String × ℕ)} {y : String × ℕ}
    {r : List (String × ℕ)} (h : sortByStartDesc l = y :: r) :
    ∀ z ∈ l, z.2 ≤ y.2 := by
  induction l generalizing y r with
  | nil => simp [sortByStartDesc] at h
  | cons x xs ih =>
      simp only [sortByStartDesc] at h
      cases hs : sortByStartDesc xs with
      | nil =>
          have hxs : xs = [] := sortByStartDesc_eq_nil_iff.mp hs
          rw [hs] at h
          simp only [insertByStartDesc] at h
          obtain ⟨rfl, -⟩ := List.cons.inj h
          subst hxs
          intro z hz
          rcases List.mem_cons.mp hz with rfl | hz
          · exact le_refl _
          · simp at hz
      | cons a as =>
          rw [hs] at h
          simp only [insertByStartDesc] at h
          by_cases hc : a.2 ≤ x.2
          · rw [if_pos hc] at h
            obtain ⟨rfl, -⟩ := List.cons.inj h
            intro z hz
            rcases List.mem_cons.mp hz with rfl | hz
            · exact le_refl _
            · exact le_trans (ih hs z hz) hc
          · rw [if_neg hc] at h
            obtain ⟨rfl, -⟩ := List.cons.inj h
            intro z hz
            rcases List.mem_cons.mp hz with rfl | hz
            · exact le_of_lt (lt_of_not_le hc)
            · exact ih hs z hz

theorem mem_activeSessions {cfg : SessionConfig} {cur : ℕ} {z : String × ℕ} :
    z ∈ activeSessions cfg cur ↔
      ∃ p ∈ cfg.sessions,
        sessionContains cur p.2 = true ∧ z = (p.1, p.2.startMins) := by
  simp only [activeSessions, List.mem_filterMap]
  constructor
  · rintro ⟨p, hp, hf⟩
    by_cases hc : sessionContains cur p.2
    · rw [if_pos hc] at hf
      exact ⟨p, hp, hc, (Option.some.inj hf).symm⟩
    · rw [if_neg hc] at hf
      simp at hf
  · rintro ⟨p, hp, hc, rfl⟩
    exact ⟨p, hp, by rw [if_pos hc]⟩

theorem lookupKey_eq_of_mem {α : Type} {l : List (String × α)} {k : String}
    {v : α} (hnd : (l.map Prod.fst).Nodup) (hm : (k, v) ∈ l) :
    lookupKey l k = some v := by
  induction l with
  | nil => simp at hm
  | cons p rest ih =>
      obtain ⟨k', v'⟩ := p
      simp only [List.map_cons, List.nodup_cons] at hnd
      rcases List.mem_cons.mp hm with h | h
      · obtain ⟨rfl, rfl⟩ := Prod.mk.inj h.symm
        simp [lookupKey]
      · have hk : k' ≠ k := by
          intro he
          subst he
          exact hnd.1 (by simpa using List.mem_map_of_mem Prod.fst h)
        simp only [lookupKey, if_neg hk]
        exact ih hnd.2 h

/-- C6: with the master switch enabled, session admission (a) treats a
window as active exactly when the half-open interval `[start, end)`
contains the time-of-day, windows wrapping past midnight included; (b)
returns not-allowed when no window is active; and (c) when at least one
window is active, the session looked up by `check_trade_allowed` is an
active window whose start time is latest among all active windows, and the
trade is allowed exactly when the symbol is in that window's
`allowed_symbols` list. -/
theorem session_admission_correct (cfg : SessionConfig) (sym : String)
    (cur : ℕ) (hm : cfg.masterSwitch.getD true = true)
    (hnd : (cfg.sessions.map Prod.fst).Nodup)
    (hnn : "none" ∉ cfg.sessions.map Prod.fst) :
    (∀ s : SessionData, sessionContains cur s = true ↔
        (if s.endMins < s.startMins then s.startMins ≤ cur ∨ cur < s.endMins
         else s.startMins ≤ cur ∧ cur < s.endMins))
    ∧ ((∀ p ∈ cfg.sessions, sessionContains cur p.2 = false) →
        (check_trade_allowed cfg sym cur).1 = false)
    ∧ (∀ p ∈ cfg.sessions, sessionContains cur p.2 = true →
        ∃ data,
          lookupKey cfg.sessions (get_current_session cfg cur) = some data
          ∧ sessionContains cur data = true
          ∧ (∀ q ∈ cfg.sessions, sessionContains cur q.2 = true →
              q.2.startMins ≤ data.startMins)
          ∧ ((check_trade_allowed cfg sym cur).1 = true ↔
              sym ∈ data.allowedSymbols)) := by
  refine ⟨?_, ?_, ?_⟩
  · intro s
    unfold sessionContains
    split <;> simp
  · intro hall
    have hA : activeSessions cfg cur = [] := by
      refine List.filterMap_eq_nil_iff.mpr ?_
      intro p hp
      rw [hall p hp]
      simp
    have hgcs : get_current_session cfg cur = "none" := by
      unfold get_current_session
      rw [hA]
      rfl
    simp [check_trade_allowed, hm, hgcs]
  · intro p hp hpc
    have hmemA : (p.1, p.2.startMins) ∈ activeSessions cfg cur :=
      mem_activeSessions.mpr ⟨p, hp, hpc, rfl⟩
    have hAne : activeSessions cfg cur ≠ [] := by
      intro h
      rw [h] at hmemA
      simp at hmemA
    obtain ⟨y, r, hs⟩ : ∃ y r,
        sortByStartDesc (activeSessions cfg cur) = y :: r := by
      cases hsort : sortByStartDesc (activeSessions cfg cur) with
      | nil => exact absurd (sortByStartDesc_eq_nil_iff.mp hsort) hAne
      | cons y r => exact ⟨y, r, rfl⟩
    have hgcs : get_current_session cfg cur = y.1 := by
      unfold get_current_session
      rw [hs]
    have hyA : y ∈ activeSessions cfg cur :=
      mem_sortByStartDesc.mp (hs ▸ List.mem_cons_self y r)
    obtain ⟨q, hq, hqc, hyq⟩ := mem_activeSessions.mp hyA
    subst hyq
    have hqmem : (q.1, q.2) ∈ cfg.sessions := by
      simpa using hq
    have hlk : lookupKey cfg.sessions q.1 = some q.2 :=
      lookupKey_eq_of_mem hnd hqmem
    have hq1 : q.1 ≠ "none" := by
      intro he
      exact hnn (he ▸ List.mem_map_of_mem Prod.fst hq)
    have hcheck : check_trade_allowed cfg sym cur =
        (if sym ∈ q.2.allowedSymbols then (true, "Allowed in " ++ q.2.name)
         else (false, sym ++ " not allowed in " ++ q.2.name)) := by
      unfold check_trade_allowed
      rw [hm]
      simp only [Bool.not_true, Bool.false_eq_true, if_false, hgcs]
      rw [if_neg hq1, hlk]
    refine ⟨q.2, ?_, hqc, ?_, ?_⟩
    · rw [hgcs]
      exact hlk
    · intro w hw hwc
      have hwA : (w.1, w.2.startMins) ∈ activeSessions cfg cur :=
        mem_activeSessions.mpr ⟨w, hw, hwc, rfl⟩
      exact sortByStartDesc_head_max hs _ hwA
    · rw [hcheck]
      by_cases hsym : sym ∈ q.2.allowedSymbols
      · simp [hsym]
      · simp [hsym]

/-- A concrete session table (three windows of the default config: Asian
05:00–13:30, London 13:30–18:30, NY Late 22:30–03:30 wrapping midnight),
master switch on. -/
def sessionCfgW : SessionConfig :=
  ⟨some true,
   [("asian", ⟨time_to_minutes 5 0, time_to_minutes 13 30,
       ["USDJPY", "AUDJPY", "AUDUSD", "NZDUSD"], "Asian Session"⟩),
    ("london", ⟨time_to_minutes 13 30, time_to_minutes 18 30,
       ["EURUSD", "GBPUSD", "EURGBP", "GBPJPY", "EURJPY", "XAUUSD"],
       "London Session"⟩),
    ("ny_late", ⟨time_to_minutes 22 30, time_to_minutes 3 30,
       ["USDJPY", "XAUUSD", "USDCAD"], "NY Late Session"⟩)]⟩

/-- Witness for C6: at 15:00 (900 minutes) the London window is active,
`check_trade_allowed` permits EURUSD, and the theorem's hypotheses hold on
the concrete table. -/
theorem session_admission_correct_witness :
    (check_trade_allowed sessionCfgW "EURUSD" 900).1 = true := by
  obtain ⟨-, -, h3⟩ :=
    session_admission_correct sessionCfgW "EURUSD" 900 (by decide) (by decide)
      (by decide)
  obtain ⟨data, hl, -, -, hiff⟩ :=
    h3 ("london", ⟨time_to_minutes 13 30, time_to_minutes 18 30,
          ["EURUSD", "GBPUSD", "EURGBP", "GBPJPY", "EURJPY", "XAUUSD"],
          "London Session"⟩)
      (by decide) (by decide)
  have hlw : lookupKey sessionCfgW.sessions
      (get_current_session sessionCfgW 900) =
      some ⟨time_to_minutes 13 30, time_to_minutes 18 30,
        ["EURUSD", "GBPUSD", "EURGBP", "GBPJPY", "EURJPY", "XAUUSD"],
        "London Session"⟩ := by decide
  rw [hlw] at hl
  have hdata := Option.some.inj hl
  rw [hiff, ← hdata]
  decide

/-!
## CombinedV3Plugin (`src/logic_plugins/combined_v3/plugin.py`)

The plugin's `plugin_config` dict is modelled by `V3PluginConfig`; a key
read with `.get(key, default)` becomes an `Option` field, `none` meaning
the key is absent so the Python default applies.  An alert is modelled by
the fields the duck-typed accessors `_get_signal_type`, `_get_symbol`,
`_get_direction`, `_get_timeframe`, `_get_consensus_score` extract.
-/

/-- A parsed V3 alert (fields read by the `_get_*` accessors). -/
structure V3Alert where
  signal_type : String
  symbol : String
  direction : String
  tf : String
  consensus_score : ℤ
  deriving DecidableEq, Repr

/-- The slice of `self.plugin_config` read by the embedded methods. -/
structure V3PluginConfig where
  signal_overrides : List (String × String)
  timeframe_routing : List (String × String)
  default_logic : Option String
  logic_multipliers : List (String × ℚ)
  aggressive_reversal_signals : Option (List String)
  sl_hunt_enabled : Option Bool
  tp_continuation_enabled : Option Bool
  exit_continuation_enabled : Option Bool
  max_chain_level : Option ℕ
  deriving DecidableEq, Repr

/-- `CombinedV3Plugin._route_to_logic` (plugin.py:535–572): signal-type
override table first, then the structural screener / long-timeframe
Golden_Pocket_Flip rules, then the timeframe table, then the configured
default (`"combinedlogic-2"` when unset). -/
def _route_to_logic (cfg : V3PluginConfig) (alert : V3Alert) : String :=
  match lookupKey cfg.signal_overrides alert.signal_type with
  | some route => route
  | none =>
      if alert.signal_type = "Screener_Full_Bullish"
          ∨ alert.signal_type = "Screener_Full_Bearish" then
        "combinedlogic-3"
      else if alert.signal_type = "Golden_Pocket_Flip"
          ∧ (alert.tf = "60" ∨ alert.tf = "240") then
        "combinedlogic-3"
      else
        match lookupKey cfg.timeframe_routing alert.tf with
        | some route => route
        | none => cfg.default_logic.getD "combinedlogic-2"

/-- `CombinedV3Plugin._get_logic_multiplier` (plugin.py:574–585):
`self.plugin_config.get("logic_multipliers", {}).get(logic_route, 1.0)`. -/
def _get_logic_multiplier (cfg : V3PluginConfig) (logic_route : String) : ℚ :=
  (lookupKey cfg.logic_multipliers logic_route).getD 1

/-- The default of `plugin_config.get("aggressive_reversal_signals", [...])`
(plugin.py:600–605). -/
def defaultAggressiveSignals : List String :=
  ["Liquidity_Trap_Reversal", "Golden_Pocket_Flip",
   "Screener_Full_Bullish", "Screener_Full_Bearish"]

/-- `CombinedV3Plugin._is_aggressive_reversal_signal` (plugin.py:587–607):
`signal_type in aggressive_signals or consensus_score >= 7`. -/
def _is_aggressive_reversal_signal (cfg : V3PluginConfig)
    (alert : V3Alert) : Bool :=
  decide (alert.signal_type
      ∈ cfg.aggressive_reversal_signals.getD defaultAggressiveSignals)
    || decide (7 ≤ alert.consensus_score)

/-- The close direction of `_handle_aggressive_reversal` (plugin.py:622):
`"SELL" if direction == "buy" else "BUY"`. -/
def closeDirectionFor (direction : String) : String :=
  if direction = "buy" then "SELL" else "BUY"

/-- Externally visible actions of `process_entry_signal`. -/
inductive V3Action where
  | closePositions (symbol direction : String)
  | placeDualOrders (symbol direction logicRoute : String)
      (logicMultiplier : ℚ)
  deriving DecidableEq, Repr

/-- `CombinedV3Plugin.process_entry_signal` (plugin.py:391–447) as its
trace of effects: the aggressive-reversal pre-step closes conflicting
positions via `service_api.close_positions_by_direction`
(`_handle_aggressive_reversal`, plugin.py:609–637), then — unless shadow
mode is on — `order_manager.place_v3_dual_orders` is called with the
routed logic and multiplier. -/
def process_entry_signal (cfg : V3PluginConfig) (shadowMode : Bool)
    (alert : V3Alert) : List V3Action :=
  (if _is_aggressive_reversal_signal cfg alert then
    [V3Action.closePositions alert.symbol (closeDirectionFor alert.direction)]
  else []) ++
  (if shadowMode then []
  else
    [V3Action.placeDualOrders alert.symbol alert.direction
      (_route_to_logic cfg alert)
      (_get_logic_multiplier cfg (_route_to_logic cfg alert))])

/-- Modelled from the spec: `DualOrderService._apply_smart_lot` lives in
`src/core/services/dual_order_service.py`, which is not under `src/`; the
spec says the smart lot is 100% of base while more than 50% of the daily
budget remains, 75% between 25–50%, and 50% below 25%.  The remaining
daily-budget fraction is the abstract state. -/
def _apply_smart_lot (remainingBudgetFraction : ℚ) (baseLot : ℚ) : ℚ :=
  if 1/2 < remainingBudgetFraction then baseLot
  else if 1/4 ≤ remainingBudgetFraction then baseLot * (3/4)
  else baseLot * (1/2)

/-- `CombinedV3Plugin.get_smart_lot_size` (plugin.py:284–301): returns the
base lot unchanged when `self._dual_order_service` is absent, otherwise
delegates to `_apply_smart_lot`; the attached service is modelled by its
remaining daily-budget fraction. -/
def get_smart_lot_size (dualOrderService : Option ℚ) (base_lot : ℚ) : ℚ :=
  match dualOrderService with
  | none => base_lot
  | some remainingBudgetFraction =>
      _apply_smart_lot remainingBudgetFraction base_lot

/-- C8: the smart lot adjustment never scales up — for every (nonnegative)
base lot and every daily-budget state, with or without the dual-order
service attached, the adjusted lot is at most the base lot. -/
theorem smart_lot_never_scales_up (dualOrderService : Option ℚ)
    (base_lot : ℚ) (hb : 0 ≤ base_lot) :
    get_smart_lot_size dualOrderService base_lot ≤ base_lot := by
  cases dualOrderService with
  | none => exact le_refl _
  | some frac =>
      show _apply_smart_lot frac base_lot ≤ base_lot
      unfold _apply_smart_lot
      by_cases h1 : (1 : ℚ)/2 < frac
      · rw [if_pos h1]
      · rw [if_neg h1]
        by_cases h2 : (1 : ℚ)/4 ≤ frac
        · rw [if_pos h2]
          nlinarith
        · rw [if_neg h2]
          nlinarith

/-- Witness for C8: with 30% of the daily budget remaining, a base lot of
2 is scaled to at most 2. -/
theorem smart_lot_never_scales_up_witness :
    (0 : ℚ) ≤ 2 ∧ get_smart_lot_size (some (3/10)) 2 ≤ 2 :=
  ⟨by norm_num, smart_lot_never_scales_up (some (3/10)) 2 (by norm_num)⟩

/-- C2: an entry signal is flagged aggressive-reversal exactly when its
signal type is in the configured aggressive list or its consensus score is
at least 7; a flagged signal first closes all open positions on the
opposite side (the plugin's direction convention is lowercase
`"buy"`/`"sell"`) of the signal's direction for its symbol and only then
places the dual orders; an unflagged signal triggers no close. -/
theorem aggressive_reversal_closes_opposite_first (cfg : V3PluginConfig)
    (a : V3Alert) :
    (_is_aggressive_reversal_signal cfg a = true ↔
      (a.signal_type
          ∈ cfg.aggressive_reversal_signals.getD defaultAggressiveSignals
        ∨ 7 ≤ a.consensus_score))
    ∧ (_is_aggressive_reversal_signal cfg a = true →
        process_entry_signal cfg false a
          = [V3Action.closePositions a.symbol (closeDirectionFor a.direction),
             V3Action.placeDualOrders a.symbol a.direction
               (_route_to_logic cfg a)
               (_get_logic_multiplier cfg (_route_to_logic cfg a))]
          ∧ (a.direction = "buy" → closeDirectionFor a.direction = "SELL")
          ∧ (a.direction = "sell" → closeDirectionFor a.direction = "BUY"))
    ∧ (_is_aggressive_reversal_signal cfg a = false →
        ∀ sym d, V3Action.closePositions sym d
          ∉ process_entry_signal cfg false a) := by
  refine ⟨?_, ?_, ?_⟩
  · simp [_is_aggressive_reversal_signal]
  · intro hagg
    refine ⟨?_, ?_, ?_⟩
    · simp [process_entry_signal, hagg]
    · intro hb
      simp [closeDirectionFor, hb]
    · intro hs
      have : a.direction ≠ "buy" := by
        rw [hs]
        decide
      simp [closeDirectionFor, this]
  · intro hagg sym d
    simp [process_entry_signal, hagg]

/-- Witness for C2: a Golden_Pocket_Flip buy alert (in the default
aggressive list) first closes the SELL side, then places the dual
orders. -/
theorem aggressive_reversal_closes_opposite_first_witness :
    process_entry_signal
        ⟨[], [], none, [], none, none, none, none, none⟩ false
        ⟨"Golden_Pocket_Flip", "XAUUSD", "buy", "240", 0⟩
      = [V3Action.closePositions "XAUUSD" "SELL",
         V3Action.placeDualOrders "XAUUSD" "buy" "combinedlogic-3" 1] := by
  obtain ⟨-, h2, -⟩ :=
    aggressive_reversal_closes_opposite_first
      ⟨[], [], none, [], none, none, none, none, none⟩
      ⟨"Golden_Pocket_Flip", "XAUUSD", "buy", "240", 0⟩
  obtain ⟨htrace, hbuy, -⟩ := h2 (by decide)
  rw [htrace]
  rw [hbuy rfl]
  decide

/-- Modelled from the spec: the `logic_multipliers` table is read from
`combined_v3/config.json`, which is not under `src/`; the spec's static
table is aggressive = 1.25×, standard = 1.0×, conservative = 0.625× for
logics 1, 2, 3 respectively. -/
def defaultLogicMultipliers : List (String × ℚ) :=
  [("combinedlogic-1", 1.25), ("combinedlogic-2", 1), ("combinedlogic-3", 0.625)]

/-- C5: `_route_to_logic` evaluates its rules in strict priority order with
no fallthrough — (1) the exact signal-type override table, (2) screener
signals to `combinedlogic-3`, (3) `Golden_Pocket_Flip` on timeframe 60 or
240 to `combinedlogic-3`, (4) the timeframe table, (5) the configured
default; and a `{Golden_Pocket_Flip, tf 240}` signal with no override
entry resolves to the conservative route with multiplier 0.625 under the
spec's multiplier table. -/
theorem signal_routing_priority (cfg : V3PluginConfig) (a : V3Alert) :
    (∀ route, lookupKey cfg.signal_overrides a.signal_type = some route →
        _route_to_logic cfg a = route)
    ∧ (lookupKey cfg.signal_overrides a.signal_type = none →
        (a.signal_type = "Screener_Full_Bullish"
          ∨ a.signal_type = "Screener_Full_Bearish") →
        _route_to_logic cfg a = "combinedlogic-3")
    ∧ (lookupKey cfg.signal_overrides a.signal_type = none →
        ¬(a.signal_type = "Screener_Full_Bullish"
          ∨ a.signal_type = "Screener_Full_Bearish") →
        a.signal_type = "Golden_Pocket_Flip" →
        (a.tf = "60" ∨ a.tf = "240") →
        _route_to_logic cfg a = "combinedlogic-3")
    ∧ (∀ route, lookupKey cfg.signal_overrides a.signal_type = none →
        ¬(a.signal_type = "Screener_Full_Bullish"
          ∨ a.signal_type = "Screener_Full_Bearish") →
        ¬(a.signal_type = "Golden_Pocket_Flip"
          ∧ (a.tf = "60" ∨ a.tf = "240")) →
        lookupKey cfg.timeframe_routing a.tf = some route →
        _route_to_logic cfg a = route)
    ∧ (lookupKey cfg.signal_overrides a.signal_type = none →
        ¬(a.signal_type = "Screener_Full_Bullish"
          ∨ a.signal_type = "Screener_Full_Bearish") →
        ¬(a.signal_type = "Golden_Pocket_Flip"
          ∧ (a.tf = "60" ∨ a.tf = "240")) →
        lookupKey cfg.timeframe_routing a.tf = none →
        _route_to_logic cfg a = cfg.default_logic.getD "combinedlogic-2")
    ∧ (a.signal_type = "Golden_Pocket_Flip" → a.tf = "240" →
        lookupKey cfg.signal_overrides "Golden_Pocket_Flip" = none →
        cfg.logic_multipliers = defaultLogicMultipliers →
        _route_to_logic cfg a = "combinedlogic-3"
          ∧ _get_logic_multiplier cfg (_route_to_logic cfg a) = 0.625) := by
  refine ⟨?_, ?_, ?_, ?_, ?_, ?_⟩
  · intro route hov
    simp [_route_to_logic, hov]
  · intro hov hscr
    simp [_route_to_logic, hov, hscr]
  · intro hov hscr hgpf htf
    rw [hgpf] at hov
    simp [_route_to_logic, hov, hscr, hgpf, htf]
  · intro route hov hscr hgpf htf
    simp [_route_to_logic, hov, hscr, hgpf, htf]
  · intro hov hscr hgpf htf
    simp [_route_to_logic, hov, hscr, hgpf, htf]
  · intro hgpf htf hov hmul
    have hroute : _route_to_logic cfg a = "combinedlogic-3" := by
      simp [_route_to_logic, hov, hgpf, htf]
    refine ⟨hroute, ?_⟩
    rw [hroute, _get_logic_multiplier, hmul]
    simp [defaultLogicMultipliers, lookupKey]

/-- Witness for C5: a `{Golden_Pocket_Flip, tf 240}` signal with no
override entry routes to `combinedlogic-3` with multiplier 0.625 even
though the timeframe table maps 240 to `combinedlogic-2`. -/
theorem signal_routing_priority_witness :
    _route_to_logic
        ⟨[], [("240", "combinedlogic-2")], none, defaultLogicMultipliers,
          none, none, none, none, none⟩
        ⟨"Golden_Pocket_Flip", "EURUSD", "buy", "240", 0⟩
      = "combinedlogic-3"
    ∧ _get_logic_multiplier
        ⟨[], [("240", "combinedlogic-2")], none, defaultLogicMultipliers,
          none, none, none, none, none⟩
        (_route_to_logic
          ⟨[], [("240", "combinedlogic-2")], none, defaultLogicMultipliers,
            none, none, none, none, none⟩
          ⟨"Golden_Pocket_Flip", "EURUSD", "buy", "240", 0⟩)
      = 0.625 :=
  (signal_routing_priority
      ⟨[], [("240", "combinedlogic-2")], none, defaultLogicMultipliers,
        none, none, none, none, none⟩
      ⟨"Golden_Pocket_Flip", "EURUSD", "buy", "240", 0⟩).2.2.2.2.2
    rfl rfl rfl rfl

/-!
## Re-entry system of `CombinedV3Plugin` (plugin.py:870–1089)

`self._chain_levels` (`trade_id -> chain_level`) is an association list;
`self._reentry_service` presence is a boolean; the outcome of
`start_sl_hunt_recovery` / `start_tp_continuation` is an oracle boolean
carried with each event.
-/

/-- `ReentryType` of `reentry_interface` as used by the plugin. -/
inductive V3ReentryType where
  | slHunt
  | tpContinuation
  | exitContinuation
  deriving DecidableEq, Repr

/-- The fields of a `ReentryEvent` read by the embedded handlers. -/
structure V3ReentryEvent where
  trade_id : String
  symbol : String
  direction : String
  entry_price : ℚ
  sl_price : ℚ
  chain_level : ℕ
  reentry_type : V3ReentryType
  deriving DecidableEq, Repr

/-- `CombinedV3Plugin.get_chain_level` (plugin.py:1067–1077):
`self._chain_levels.get(trade_id, 0)`. -/
def get_chain_level (chainLevels : List (String × ℕ)) (trade_id : String) : ℕ :=
  (lookupKey chainLevels trade_id).getD 0

/-- `CombinedV3Plugin.get_max_chain_level` (plugin.py:1079–1089):
`self.plugin_config.get("max_chain_level", 5)`. -/
def get_max_chain_level (cfg : V3PluginConfig) : ℕ :=
  cfg.max_chain_level.getD 5

/-- Result of a re-entry handler: the returned boolean, the updated
`self._chain_levels`, and the trade ids for which the `ReentryService` was
asked to start a recovery monitor. -/
structure ReentryOutcome where
  started : Bool
  chainLevels : List (String × ℕ)
  monitorRequests : List String
  deriving DecidableEq, Repr

/-- `CombinedV3Plugin.on_sl_hit` (plugin.py:870–917): refuses when the
re-entry service is absent, SL Hunt is disabled, or the trade's chain
level has reached `max_chain_level`; otherwise asks the service to start
the monitor and, on success, stores `current_level + 1`. -/
def on_sl_hit (cfg : V3PluginConfig) (hasReentryService : Bool)
    (chainLevels : List (String × ℕ)) (e : V3ReentryEvent)
    (serviceStarted : Bool) : ReentryOutcome :=
  if !hasReentryService then ⟨false, chainLevels, []⟩
  else if !(cfg.sl_hunt_enabled.getD true) then ⟨false, chainLevels, []⟩
  else
    let current_level := get_chain_level chainLevels e.trade_id
    if get_max_chain_level cfg ≤ current_level then ⟨false, chainLevels, []⟩
    else if serviceStarted then
      ⟨true, setKey chainLevels e.trade_id (current_level + 1), [e.trade_id]⟩
    else ⟨false, chainLevels, [e.trade_id]⟩

/-- `CombinedV3Plugin.on_tp_hit` (plugin.py:919–964): same shape as
`on_sl_hit` with the `tp_continuation` enable flag and
`start_tp_continuation`. -/
def on_tp_hit (cfg : V3PluginConfig) (hasReentryService : Bool)
    (chainLevels : List (String × ℕ)) (e : V3ReentryEvent)
    (serviceStarted : Bool) : ReentryOutcome :=
  if !hasReentryService then ⟨false, chainLevels, []⟩
  else if !(cfg.tp_continuation_enabled.getD true) then ⟨false, chainLevels, []⟩
  else
    let current_level := get_chain_level chainLevels e.trade_id
    if get_max_chain_level cfg ≤ current_level then ⟨false, chainLevels, []⟩
    else if serviceStarted then
      ⟨true, setKey chainLevels e.trade_id (current_level + 1), [e.trade_id]⟩
    else ⟨false, chainLevels, [e.trade_id]⟩

/-- `CombinedV3Plugin.on_exit` (plugin.py:966–1002): starts Exit
Continuation monitoring when enabled; never touches `self._chain_levels`
and has no chain-cap check. -/
def on_exit (cfg : V3PluginConfig) (hasReentryService : Bool)
    (chainLevels : List (String × ℕ)) (e : V3ReentryEvent)
    (serviceStarted : Bool) : ReentryOutcome :=
  if !hasReentryService then ⟨false, chainLevels, []⟩
  else if !(cfg.exit_continuation_enabled.getD true) then
    ⟨false, chainLevels, []⟩
  else ⟨serviceStarted, chainLevels, [e.trade_id]⟩

/-- Which re-entry handler an incoming close event is dispatched to. -/
inductive V3ReentryKind where
  | slHit
  | tpHit
  | exitEvt
  deriving DecidableEq, Repr

/-- One dispatch step: the chain-level map after handling one event. -/
def reentryStep (cfg : V3PluginConfig) (hasReentryService : Bool)
    (chainLevels : List (String × ℕ))
    (ev : V3ReentryKind × V3ReentryEvent × Bool) : List (String × ℕ) :=
  match ev.1 with
  | V3ReentryKind.slHit =>
      (on_sl_hit cfg hasReentryService chainLevels ev.2.1 ev.2.2).chainLevels
  | V3ReentryKind.tpHit =>
      (on_tp_hit cfg hasReentryService chainLevels ev.2.1 ev.2.2).chainLevels
  | V3ReentryKind.exitEvt =>
      (on_exit cfg hasReentryService chainLevels ev.2.1 ev.2.2).chainLevels

/-- The chain-level map after a sequence of re-entry events. -/
def runReentryEvents (cfg : V3PluginConfig) (hasReentryService : Bool)
    (chainLevels : List (String × ℕ)) :
    List (V3ReentryKind × V3ReentryEvent × Bool) → List (String × ℕ)
  | [] => chainLevels
  | ev :: rest =>
      runReentryEvents cfg hasReentryService
        (reentryStep cfg hasReentryService chainLevels ev) rest

theorem lookupKey_setKey {α : Type} (m : List (String × α)) (k key : String)
    (v : α) :
    lookupKey (setKey m k v) key = if k = key then some v else lookupKey m key := by
  induction m with
  | nil => simp [setKey, lookupKey]
  | cons p rest ih =>
      obtain ⟨k', w⟩ := p
      by_cases hk : k' = k
      · subst hk
        simp only [setKey, if_pos rfl]
        by_cases hkey : k' = key
        · subst hkey
          simp [lookupKey]
        · simp [lookupKey, hkey]
      · simp only [setKey, if_neg hk]
        by_cases hkey : k' = key
        · subst hkey
          have : ¬ k = k' := fun h => hk h.symm
          simp [lookupKey, this]
        · simp [lookupKey, hkey, ih]

theorem get_chain_level_setKey (m : List (String × ℕ)) (k key : String)
    (v : ℕ) :
    get_chain_level (setKey m k v) key
      = if k = key then v else get_chain_level m key := by
  unfold get_chain_level
  rw [lookupKey_setKey]
  by_cases h : k = key
  · simp [h]
  · simp [h]

theorem on_sl_hit_bound (cfg : V3PluginConfig) (hasService : Bool)
    (m : List (String × ℕ)) (e : V3ReentryEvent) (ok : Bool)
    (h : ∀ tid, get_chain_level m tid ≤ get_max_chain_level cfg) :
    ∀ tid, get_chain_level (on_sl_hit cfg hasService m e ok).chainLevels tid
      ≤ get_max_chain_level cfg := by
  intro tid
  simp only [on_sl_hit]
  split
  · exact h tid
  · split
    · exact h tid
    · split
      · exact h tid
      · rename_i hcap
        split
        · rw [get_chain_level_setKey]
          split
          · omega
          · exact h tid
        · exact h tid

theorem on_tp_hit_bound (cfg : V3PluginConfig) (hasService : Bool)
    (m : List (String × ℕ)) (e : V3ReentryEvent) (ok : Bool)
    (h : ∀ tid, get_chain_level m tid ≤ get_max_chain_level cfg) :
    ∀ tid, get_chain_level (on_tp_hit cfg hasService m e ok).chainLevels tid
      ≤ get_max_chain_level cfg := by
  intro tid
  simp only [on_tp_hit]
  split
  · exact h tid
  · split
    · exact h tid
    · split
      · exact h tid
      · rename_i hcap
        split
        · rw [get_chain_level_setKey]
          split
          · omega
          · exact h tid
        · exact h tid

theorem on_exit_bound (cfg : V3PluginConfig) (hasService : Bool)
    (m : List (String × ℕ)) (e : V3ReentryEvent) (ok : Bool)
    (h : ∀ tid, get_chain_level m tid ≤ get_max_chain_level cfg) :
    ∀ tid, get_chain_level (on_exit cfg hasService m e ok).chainLevels tid
      ≤ get_max_chain_level cfg := by
  intro tid
  simp only [on_exit]
  split
  · exact h tid
  · split
    · exact h tid
    · exact h tid

theorem reentryStep_bound (cfg : V3PluginConfig) (hasService : Bool)
    (m : List (String × ℕ)) (ev : V3ReentryKind × V3ReentryEvent × Bool)
    (h : ∀ tid, get_chain_level m tid ≤ get_max_chain_level cfg) :
    ∀ tid, get_chain_level (reentryStep cfg hasService m ev) tid
      ≤ get_max_chain_level cfg := by
  obtain ⟨kind, e, ok⟩ := ev
  cases kind
  case slHit => exact on_sl_hit_bound cfg hasService m e ok h
  case tpHit => exact on_tp_hit_bound cfg hasService m e ok h
  case exitEvt => exact on_exit_bound cfg hasService m e ok h

theorem runReentryEvents_bound (cfg : V3PluginConfig) (hasService : Bool)
    (events : List (V3ReentryKind × V3ReentryEvent × Bool)) :
    ∀ m, (∀ tid, get_chain_level m tid ≤ get_max_chain_level cfg) →
      ∀ tid, get_chain_level (runReentryEvents cfg hasService m events) tid
        ≤ get_max_chain_level cfg := by
  induction events with
  | nil => intro m h tid; exact h tid
  | cons ev rest ih =>
      intro m h tid
      exact ih _ (reentryStep_bound cfg hasService m ev h) tid

/-- C4: the stored chain level never exceeds `max_chain_level` (default 5):
starting from the empty map, after any sequence of SL-hit / TP-hit / exit
events the stored value for every trade id is at most
`get_max_chain_level`; `on_sl_hit` and `on_tp_hit` refuse (return `false`,
touch nothing, start no monitor) whenever the trade's current level is at
least the cap; and every successful start stores exactly
`current_level + 1`. -/
theorem chain_level_never_exceeds_max (cfg : V3PluginConfig)
    (hasService : Bool)
    (events : List (V3ReentryKind × V3ReentryEvent × Bool)) (tid : String) :
    get_chain_level (runReentryEvents cfg hasService [] events) tid
        ≤ get_max_chain_level cfg
    ∧ (∀ (m : List (String × ℕ)) (e : V3ReentryEvent) (ok : Bool),
        get_max_chain_level cfg ≤ get_chain_level m e.trade_id →
          on_sl_hit cfg hasService m e ok = ⟨false, m, []⟩
          ∧ on_tp_hit cfg hasService m e ok = ⟨false, m, []⟩)
    ∧ (∀ (m : List (String × ℕ)) (e : V3ReentryEvent) (ok : Bool),
        (on_sl_hit cfg hasService m e ok).started = true →
          (on_sl_hit cfg hasService m e ok).chainLevels
            = setKey m e.trade_id (get_chain_level m e.trade_id + 1))
    ∧ (∀ (m : List (String × ℕ)) (e : V3ReentryEvent) (ok : Bool),
        (on_tp_hit cfg hasService m e ok).started = true →
          (on_tp_hit cfg hasService m e ok).chainLevels
            = setKey m e.trade_id (get_chain_level m e.trade_id + 1)) := by
  refine ⟨?_, ?_, ?_, ?_⟩
  · refine runReentryEvents_bound cfg hasService events [] ?_ tid
    intro tid'
    simp [get_chain_level, lookupKey]
  · intro m e ok hcap
    constructor
    · cases hasService with
      | false => simp [on_sl_hit]
      | true =>
          cases hEn : cfg.sl_hunt_enabled.getD true with
          | false => simp [on_sl_hit, hEn]
          | true => simp [on_sl_hit, hEn, hcap]
    · cases hasService with
      | false => simp [on_tp_hit]
      | true =>
          cases hEn : cfg.tp_continuation_enabled.getD true with
          | false => simp [on_tp_hit, hEn]
          | true => simp [on_tp_hit, hEn, hcap]
  · intro m e ok hst
    cases hasService with
    | false => simp [on_sl_hit] at hst
    | true =>
        cases hEn : cfg.sl_hunt_enabled.getD true with
        | false => simp [on_sl_hit, hEn] at hst
        | true =>
            by_cases hcap :
                get_max_chain_level cfg ≤ get_chain_level m e.trade_id
            · simp [on_sl_hit, hEn, hcap] at hst
            · cases ok with
              | false => simp [on_sl_hit, hEn, hcap] at hst
              | true => simp [on_sl_hit, hEn, hcap]
  · intro m e ok hst
    cases hasService with
    | false => simp [on_tp_hit] at hst
    | true =>
        cases hEn : cfg.tp_continuation_enabled.getD true with
        | false => simp [on_tp_hit, hEn] at hst
        | true =>
            by_cases hcap :
                get_max_chain_level cfg ≤ get_chain_level m e.trade_id
            · simp [on_tp_hit, hEn, hcap] at hst
            · cases ok with
              | false => simp [on_tp_hit, hEn, hcap] at hst
              | true => simp [on_tp_hit, hEn, hcap]

/-- Witness for C4: a trade already at the default cap of 5 is refused by
`on_sl_hit` — the state is unchanged and no monitor is requested. -/
theorem chain_level_never_exceeds_max_witness :
    on_sl_hit ⟨[], [], none, [], none, none, none, none, none⟩ true
        [("t1", 5)] ⟨"t1", "EURUSD", "buy", 100, 90, 5, V3ReentryType.slHunt⟩
        true
      = ⟨false, [("t1", 5)], []⟩ :=
  ((chain_level_never_exceeds_max
      ⟨[], [], none, [], none, none, none, none, none⟩ true [] "t1").2.1
    [("t1", 5)] ⟨"t1", "EURUSD", "buy", 100, 90, 5, V3ReentryType.slHunt⟩
    true (by decide)).1

/-- C10: `get_chain_level` returns 0 for every trade id that has never been
recorded in the chain-level map, so a fresh trade is treated as an original
(chain level 0) trade. -/
theorem get_chain_level_unknown_zero (chainLevels : List (String × ℕ))
    (trade_id : String) (h : lookupKey chainLevels trade_id = none) :
    get_chain_level chainLevels trade_id = 0 := by
  unfold get_chain_level
  rw [h]
  rfl

/-- Witness for C10: a trade id absent from a nonempty map gets level 0. -/
theorem get_chain_level_unknown_zero_witness :
    lookupKey [("t1", 3)] "t2" = none
    ∧ get_chain_level [("t1", 3)] "t2" = 0 :=
  ⟨by decide, get_chain_level_unknown_zero [("t1", 3)] "t2" (by decide)⟩

/-- The synthetic re-entry signal dict built by
`CombinedV3Plugin.on_recovery_signal` (plugin.py:1022–1033). -/
structure RecoverySignal where
  signal_type : String
  symbol : String
  direction : String
  entry_price : ℚ
  sl_price : ℚ
  chain_level : ℕ
  recovery_type : V3ReentryType
  deriving DecidableEq, Repr

/-- The signal-building part of `CombinedV3Plugin.on_recovery_signal`
(plugin.py:1004–1050): for a TP-Continuation event the stop-loss distance
`|entry_price - sl_price|` is scaled by
`1 - min(0.1 * chain_level, 0.5)` and the new SL is placed below the entry
for BUY (`direction.upper() == "BUY"`) and above it otherwise; all other
recovery types keep the event's SL unchanged. -/
def build_reentry_signal (e : V3ReentryEvent) : RecoverySignal :=
  let base : RecoverySignal :=
    ⟨"recovery_entry", e.symbol, e.direction, e.entry_price, e.sl_price,
      e.chain_level, e.reentry_type⟩
  if e.reentry_type = V3ReentryType.tpContinuation then
    let reduction := min ((1 / 10 : ℚ) * e.chain_level) (1 / 2)
    let original_sl_distance := |e.entry_price - e.sl_price|
    let reduced_sl_distance := original_sl_distance * (1 - reduction)
    if pyUpper e.direction = "BUY" then
      { base with sl_price := e.entry_price - reduced_sl_distance }
    else
      { base with sl_price := e.entry_price + reduced_sl_distance }
  else base

/-- C3: for every TP-Continuation recovery event with a nonzero original
stop distance, the new stop-loss distance equals the original distance
`|entry_price - sl_price|` scaled by `1 - min(0.1 * chain_level, 0.5)`;
the reduction never exceeds 50% for any chain level; and the new SL lies
below the entry for BUY and above it for SELL. -/
theorem tp_continuation_sl_distance (e : V3ReentryEvent)
    (ht : e.reentry_type = V3ReentryType.tpContinuation)
    (hne : e.entry_price ≠ e.sl_price) :
    |e.entry_price - (build_reentry_signal e).sl_price|
        = |e.entry_price - e.sl_price|
            * (1 - min ((1 / 10 : ℚ) * e.chain_level) (1 / 2))
    ∧ min ((1 / 10 : ℚ) * e.chain_level) (1 / 2) ≤ 1 / 2
    ∧ (pyUpper e.direction = "BUY" →
        (build_reentry_signal e).sl_price < e.entry_price)
    ∧ (pyUpper e.direction ≠ "BUY" →
        e.entry_price < (build_reentry_signal e).sl_price) := by
  have hred : min ((1 / 10 : ℚ) * e.chain_level) (1 / 2) ≤ 1 / 2 :=
    min_le_right _ _
  have hrednn : (0 : ℚ) ≤ min ((1 / 10 : ℚ) * e.chain_level) (1 / 2) :=
    le_min (by positivity) (by norm_num)
  have horig : (0 : ℚ) < |e.entry_price - e.sl_price| :=
    abs_pos.mpr (sub_ne_zero.mpr hne)
  have hpos : (0 : ℚ) < |e.entry_price - e.sl_price|
      * (1 - min ((1 / 10 : ℚ) * e.chain_level) (1 / 2)) := by
    nlinarith
  by_cases hb : pyUpper e.direction = "BUY"
  · have hsl : (build_reentry_signal e).sl_price
        = e.entry_price - |e.entry_price - e.sl_price|
            * (1 - min ((1 / 10 : ℚ) * e.chain_level) (1 / 2)) := by
      unfold build_reentry_signal
      rw [if_pos ht, if_pos hb]
    refine ⟨?_, hred, fun _ => ?_, fun hnb => absurd hb hnb⟩
    · rw [hsl, sub_sub_cancel, abs_of_pos hpos]
    · rw [hsl]
      linarith
  · have hsl : (build_reentry_signal e).sl_price
        = e.entry_price + |e.entry_price - e.sl_price|
            * (1 - min ((1 / 10 : ℚ) * e.chain_level) (1 / 2)) := by
      unfold build_reentry_signal
      rw [if_pos ht, if_neg hb]
    refine ⟨?_, hred, fun hb2 => absurd hb2 hb, fun _ => ?_⟩
    · rw [hsl]
      rw [sub_add_cancel_left, abs_neg, abs_of_pos hpos]
    · rw [hsl]
      linarith

/-- Witness for C3: a BUY TP-Continuation at chain level 2 with entry 100
and SL 90 gets its SL distance reduced by 20% to 8, i.e. new SL 92 below
the entry. -/
theorem tp_continuation_sl_distance_witness :
    |(100 : ℚ) -
        (build_reentry_signal
          ⟨"t1", "EURUSD", "buy", 100, 90, 2,
            V3ReentryType.tpContinuation⟩).sl_price|
      = |(100 : ℚ) - 90| * (1 - min ((1 / 10 : ℚ) * 2) (1 / 2))
    ∧ (build_reentry_signal
        ⟨"t1", "EURUSD", "buy", 100, 90, 2,
          V3ReentryType.tpContinuation⟩).sl_price < 100 := by
  obtain ⟨h1, -, h3, -⟩ :=
    tp_continuation_sl_distance
      ⟨"t1", "EURUSD", "buy", 100, 90, 2, V3ReentryType.tpContinuation⟩
      rfl (by norm_num)
  exact ⟨h1, h3 (by decide)⟩
